import Mathlib

/-!
Shallow embedding of `import_export/resources.py` (the reconciliation/import
engine of django-import-export).  Pure parts of the source are translated to
Lean functions; the pluggable collaborators (instance loader, widgets, the
external store, diff renderer, hooks) are passed in as an explicit `Env`
record of functions, each returning `Except String` where the Python code can
raise.  Side effects on the ambient transaction and the store are recorded as
an explicit event trace (`Ev`), so that temporal claims about transaction
entry/exit and save/delete calls can be stated and proved.
-/

namespace ImportExport

/-- Raw cell values of the tabular dataset. -/
abbrev Cell := String

/-- One dataset row: a mapping from column name to raw cell value
(`dataset.dict` yields such mappings in the source). -/
abbrev Row := List (String × Cell)

/-- Native values held by instance attributes.  `many` models the value of a
multi-valued relation (a related-object manager whose `.all()` resolves to a
member list, identified here by primary keys); `scalar` models every other
attribute value. -/
inductive Value where
  | scalar : String → Value
  | many : List Nat → Value
deriving DecidableEq

/-- A domain object (Django model instance) as the engine sees it: an
attribute map, an optional primary key, its Python truthiness (`bool(obj)`),
and its `str()` representation. -/
structure Instance where
  attrs : List (String × Value) := []
  pk : Option Nat := none
  py_bool : Bool := true
  str_repr : String := ""
deriving DecidableEq

/-- Association-list lookup for attribute maps. -/
def getAttrs : List (String × Value) → String → Option Value
  | [], _ => none
  | (b, w) :: t, a => if b = a then some w else getAttrs t a

/-- Association-list update (in-place `setattr` on the instance). -/
def setAttrs : List (String × Value) → String → Value → List (String × Value)
  | [], a, v => [(a, v)]
  | (b, w) :: t, a, v => if b = a then (a, v) :: t else (b, w) :: setAttrs t a v

/-- Read an attribute of an instance. -/
def Instance.getAttr (i : Instance) (a : String) : Option Value :=
  getAttrs i.attrs a

/-- Write an attribute of an instance (functional update standing for the
in-place `setattr` of the source; `deepcopy` snapshots are plain value copies
here). -/
def Instance.setAttr (i : Instance) (a : String) (v : Value) : Instance :=
  { i with attrs := setAttrs i.attrs a v }

/-- An import field as declared on a Resource: the attribute it maps to
(`none` when the field declares no attribute), the dataset column it reads,
and whether its widget is a `ManyToManyWidget`. -/
structure Field where
  attrib : Option String
  column_name : String
  is_m2m : Bool
deriving DecidableEq

/-- Modelled from the spec: `Error` (results.py is not under src/) pairs the
triggering fault with a captured diagnostic trace string; immutable value. -/
structure Error where
  exc : String
  traceback : String
deriving DecidableEq

/-- Modelled from the spec: the domain of `RowResult.import_type` is
NEW, UPDATE, DELETE, SKIP, ERROR (results.py is not under src/). -/
inductive ImportType where
  | NEW
  | UPDATE
  | DELETE
  | SKIP
  | ERROR
deriving DecidableEq

/-- Modelled from the spec: `RowResult` (results.py is not under src/) is one
outcome record per processed row, with `import_type`, the rendered per-field
diffs, the ordered error list, `object_repr`/`object_id` and the
`new_record` flag set by the engine; all unset at construction. -/
structure RowResult where
  import_type : Option ImportType := none
  diff : Option (List String) := none
  errors : List Error := []
  object_repr : Option String := none
  object_id : Option Nat := none
  new_record : Option Bool := none
deriving DecidableEq

/-- Modelled from the spec: `Result` (results.py is not under src/) holds the
ordered sequence of RowResults plus the batch-level `base_errors`. -/
structure Result where
  base_errors : List Error := []
  rows : List RowResult := []
deriving DecidableEq

/-- Modelled from the spec: `Result.has_errors()` is true iff any RowResult
carries an error or `base_errors` is non-empty. -/
def Result.has_errors (r : Result) : Bool :=
  !r.base_errors.isEmpty || r.rows.any (fun rr => !rr.errors.isEmpty)

/-- Observable events of one `import_data` run: ambient-transaction
operations, the start of each row's processing (tagged with the per-row dry
flag it is processed under), invocations of `save_instance` / `save_m2m` /
`delete_instance` (tagged with their dry flag), the actual store calls, and
each performed field assignment (tagged with the field's column name). -/
inductive Ev where
  | enterTx
  | rollback
  | commit
  | leaveTx
  | rowStart (dry : Bool)
  | saveInstanceCall (dry : Bool)
  | storeSave
  | saveM2MCall (dry : Bool)
  | deleteInstanceCall (dry : Bool)
  | storeDelete
  | applyField (column : String)
deriving DecidableEq

/-- The Resource's configuration plus its pluggable/external collaborators.
Each collaborator that can raise in Python returns `Except String`. -/
structure Env where
  fields : List Field
  skip_unchanged : Bool
  report_skipped : Bool
  meta_use_transactions : Option Bool
  settings_use_transactions : Bool
  get_instance : Row → Except String (Option Instance)
  init_instance : Row → Except String Instance
  for_delete : Row → Instance → Except String Bool
  clean : Field → Cell → Except String Value
  store_save : Instance → Except String Instance
  store_delete : Instance → Except String Unit
  export_field : Field → Instance → String
  diff2 : String → String → String
  str_of : Instance → String
  before_import : List Row → Bool → Except String Unit

/-- Source `Resource.get_use_transactions`: the Meta option when set,
otherwise the process-wide settings default. -/
def get_use_transactions (env : Env) : Bool :=
  match env.meta_use_transactions with
  | none => env.settings_use_transactions
  | some b => b

/-- Source `Resource.get_or_init_instance`: asks the instance loader and
decides found-versus-new by the Python truthiness of the returned value
(`if instance:`); a falsy return — `None` or a falsy object — yields a
freshly initialized instance and `new = true`. -/
def get_or_init_instance (env : Env) (row : Row) :
    Except String (Instance × Bool) :=
  match env.get_instance row with
  | .error e => .error e
  | .ok r =>
    match r with
    | some i =>
      if i.py_bool then .ok (i, false)
      else
        match env.init_instance row with
        | .ok fresh => .ok (fresh, true)
        | .error e => .error e
    | none =>
      match env.init_instance row with
      | .ok fresh => .ok (fresh, true)
      | .error e => .error e

/-- Modelled from the spec: `Field.get_value` (fields.py is not under src/)
reads the instance attribute named by the field's attribute, `none` when the
field declares no attribute. -/
def Field.get_value (f : Field) (i : Instance) : Option Value :=
  match f.attrib with
  | none => none
  | some a => i.getAttr a

/-- Modelled from the spec: `Field.save` (fields.py is not under src/) cleans
the raw cell of the field's column through the widget and assigns the result
to the instance attribute; fields without an attribute assign nothing. -/
def Field.save (env : Env) (f : Field) (obj : Instance) (data : Row) :
    Except String Instance :=
  match f.attrib with
  | none => .ok obj
  | some a =>
    match data.lookup f.column_name with
    | none => .error "KeyError"
    | some cell =>
      match env.clean f cell with
      | .ok v => .ok (obj.setAttr a v)
      | .error e => .error e

/-- Source `Resource.import_field`: assigns a cleaned value to the instance
attribute only when the field declares an attribute and the field's column
name is present in the row mapping. -/
def import_field (env : Env) (f : Field) (obj : Instance) (data : Row) :
    List Ev × Except String Instance :=
  if f.attrib.isSome && (data.lookup f.column_name).isSome then
    match Field.save env f obj data with
    | .ok obj2 => ([Ev.applyField f.column_name], .ok obj2)
    | .error e => ([], .error e)
  else ([], .ok obj)

/-- Sequential application of `import_field` over a field list (the list
comprehensions of `import_obj` and `save_m2m`). -/
def import_fields (env : Env) (fs : List Field) (obj : Instance) (data : Row) :
    List Ev × Except String Instance :=
  match fs with
  | [] => ([], .ok obj)
  | f :: rest =>
    let r1 := import_field env f obj data
    match r1.2 with
    | .error e => (r1.1, .error e)
    | .ok obj1 =>
      let r2 := import_fields env rest obj1 data
      (r1.1 ++ r2.1, r2.2)

/-- Source `Resource.import_obj`: applies exactly the fields whose widget is
not a `ManyToManyWidget`. -/
def import_obj (env : Env) (obj : Instance) (data : Row) (_dry_run : Bool) :
    List Ev × Except String Instance :=
  import_fields env (env.fields.filter (fun f => !f.is_m2m)) obj data

/-- Source `Resource.save_m2m`: applies the many-to-many fields, and only
when `dry_run` is false. -/
def save_m2m (env : Env) (obj : Instance) (data : Row) (dry_run : Bool) :
    List Ev × Except String Instance :=
  if dry_run then ([Ev.saveM2MCall dry_run], .ok obj)
  else
    let r := import_fields env (env.fields.filter (fun f => f.is_m2m)) obj data
    (Ev.saveM2MCall dry_run :: r.1, r.2)

/-- Source `Resource.save_instance`: the before/after hooks are no-ops in the
base class; `instance.save()` is issued only when `dry_run` is false. -/
def save_instance (env : Env) (inst : Instance) (dry_run : Bool) :
    List Ev × Except String Instance :=
  if dry_run then ([Ev.saveInstanceCall dry_run], .ok inst)
  else
    match env.store_save inst with
    | .ok inst2 => ([Ev.saveInstanceCall dry_run, Ev.storeSave], .ok inst2)
    | .error e => ([Ev.saveInstanceCall dry_run], .error e)

/-- Source `Resource.delete_instance`: the before/after hooks are no-ops in
the base class; `instance.delete()` is issued only when `dry_run` is false. -/
def delete_instance (env : Env) (inst : Instance) (dry_run : Bool) :
    List Ev × Except String Unit :=
  if dry_run then ([Ev.deleteInstanceCall dry_run], .ok ())
  else
    match env.store_delete inst with
    | .ok _ => ([Ev.deleteInstanceCall dry_run, Ev.storeDelete], .ok ())
    | .error e => ([Ev.deleteInstanceCall dry_run], .error e)

/-- Field-value comparison performed by `skip_row`: when both sides are
multi-valued relation values the resolved member lists are compared (the
`get_related_objects` branch of the source); otherwise the `AttributeError`
fallback compares the two values directly. -/
def values_equal (vi vo : Option Value) : Bool :=
  match vi, vo with
  | some (.many xs), some (.many ys) => decide (xs = ys)
  | _, _ => decide (vi = vo)

/-- Source `Resource.skip_row`: `false` unless the `skip_unchanged` option is
set; otherwise `true` iff every field's value on the post-mutation instance
equals its value on the original snapshot. -/
def skip_row (env : Env) (inst original : Instance) : Bool :=
  if !env.skip_unchanged then false
  else env.fields.all (fun f =>
    values_equal (f.get_value inst) (f.get_value original))

/-- Source `Resource.get_field_diff` applies the instance truthiness test
(`if original else ""`) before exporting each side. -/
def export_or_empty (env : Env) (f : Field) : Option Instance → String
  | none => ""
  | some i => if i.py_bool then env.export_field f i else ""

/-- Source `Resource.get_field_diff`: the two exported sides fed to the
external diff renderer (diff_match_patch is a black box `diff2`). -/
def get_field_diff (env : Env) (f : Field) (original current : Option Instance) :
    String :=
  env.diff2 (export_or_empty env f original) (export_or_empty env f current)

/-- Source `Resource.get_diff`: one rendered diff per declared field, in
field order. -/
def get_diff (env : Env) (original current : Option Instance)
    (_dry_run : Bool) : List String :=
  env.fields.map (fun f => get_field_diff env f original current)

/-- Fixed stand-in for the traceback string captured by
`traceback.format_exc`. -/
def tb_info : String := "traceback"

/-- The Error the handlers construct from a caught exception. -/
def mk_error (e : String) : Error :=
  { exc := e, traceback := tb_info }

/-- The body of the per-row `try:` block of `import_data` (source lines
430-470): returns the row's RowResult as built so far, the events the row
emitted, and the exception, if one was raised, at the point it escaped. -/
def process_row (env : Env) (real_dry_run : Bool) (row : Row) :
    RowResult × List Ev × Option String :=
  let rr0 : RowResult := {}
  match get_or_init_instance env row with
  | .error e => (rr0, [], some e)
  | .ok (inst, nw) =>
    let rr1 : RowResult := { rr0 with
      import_type := some (if nw then ImportType.NEW else ImportType.UPDATE),
      new_record := some nw }
    let original := inst
    match env.for_delete row inst with
    | .error e => (rr1, [], some e)
    | .ok fd =>
      if fd then
        if nw then
          let rr2 := { rr1 with
            import_type := some ImportType.SKIP,
            diff := some (get_diff env none none real_dry_run) }
          (rr2, [], none)
        else
          let rr2 := { rr1 with import_type := some ImportType.DELETE }
          let dr := delete_instance env inst real_dry_run
          match dr.2 with
          | .error e => (rr2, dr.1, some e)
          | .ok _ =>
            let rr3 := { rr2 with
              diff := some (get_diff env (some original) none real_dry_run) }
            (rr3, dr.1, none)
      else
        let r1 := import_obj env inst row real_dry_run
        match r1.2 with
        | .error e => (rr1, r1.1, some e)
        | .ok inst1 =>
          if skip_row env inst1 original then
            let rr2 := { rr1 with
              import_type := some ImportType.SKIP,
              diff := some (get_diff env (some original) (some inst1)
                real_dry_run) }
            (rr2, r1.1, none)
          else
            let r2 := save_instance env inst1 real_dry_run
            match r2.2 with
            | .error e => (rr1, r1.1 ++ r2.1, some e)
            | .ok inst2 =>
              let r3 := save_m2m env inst2 row real_dry_run
              match r3.2 with
              | .error e => (rr1, r1.1 ++ r2.1 ++ r3.1, some e)
              | .ok inst3 =>
                let rr2 := { rr1 with
                  object_repr := some (env.str_of inst3),
                  object_id := inst3.pk,
                  diff := some (get_diff env (some original) (some inst3)
                    real_dry_run) }
                (rr2, r1.1 ++ r2.1 ++ r3.1, none)

/-- The rollback-and-leave event pair issued before a re-raise when
transactions are active. -/
def tx_abort (use_transactions : Bool) : List Ev :=
  if use_transactions then [Ev.rollback, Ev.leaveTx] else []

/-- The recording guard of source lines 480-482: a RowResult is appended
unless its import_type is SKIP and `report_skipped` is unset. -/
def keep_row (report_skipped : Bool) (rr : RowResult) : Bool :=
  (rr.import_type != some ImportType.SKIP) || report_skipped

/-- Prepend a RowResult to the recorded sequence when the guard keeps it. -/
def record_row (report_skipped : Bool) (rr : RowResult)
    (rest : List RowResult) : List RowResult :=
  if keep_row report_skipped rr then rr :: rest else rest

/-- The row loop of `import_data` (source lines 430-482): each row runs
`process_row`; a caught exception appends exactly one Error to the partial
RowResult and, under `raise_errors`, rolls back and re-raises; otherwise the
(possibly errored) RowResult is recorded subject to the skip guard and the
loop continues. -/
def run_rows (env : Env) (real_dry_run raise_errors use_transactions : Bool) :
    List Row → List RowResult × List Ev × Option String
  | [] => ([], [], none)
  | row :: rest =>
    match process_row env real_dry_run row with
    | (rr, evs, some e) =>
      if raise_errors then
        ([], Ev.rowStart real_dry_run ::
          (evs ++ tx_abort use_transactions), some e)
      else
        match run_rows env real_dry_run raise_errors use_transactions rest with
        | (rs, evs2, oerr) =>
          (record_row env.report_skipped
            { rr with errors := rr.errors ++ [mk_error e] } rs,
           Ev.rowStart real_dry_run :: (evs ++ evs2), oerr)
    | (rr, evs, none) =>
      match run_rows env real_dry_run raise_errors use_transactions rest with
      | (rs, evs2, oerr) =>
        (record_row env.report_skipped rr rs,
         Ev.rowStart real_dry_run :: (evs ++ evs2), oerr)

/-- Effective transaction usage: the explicit argument when given, else
`get_use_transactions` (Meta option, else settings default). -/
def effective_use_transactions (env : Env) (use_transactions_arg : Option Bool) :
    Bool :=
  match use_transactions_arg with
  | none => get_use_transactions env
  | some b => b

/-- The per-row dry flag: forced to false when transactions are used,
otherwise the caller's `dry_run`. -/
def real_dry_of (env : Env) (dry_run : Bool)
    (use_transactions_arg : Option Bool) : Bool :=
  if effective_use_transactions env use_transactions_arg then false else dry_run

/-- The tail of `import_data` after the row loop (source lines 484-491):
re-raise propagates; otherwise commit when the run was not a dry run and the
Result has no errors, else roll back, then leave transaction management. -/
def finish_import (dry_run use_transactions : Bool)
    (base_errors : List Error)
    (out : List RowResult × List Ev × Option String) :
    Except String Result × List Ev :=
  match out with
  | (_, evs, some e) => (.error e, evs)
  | (rs, evs, none) =>
    let result : Result := { base_errors := base_errors, rows := rs }
    let tx_close : List Ev :=
      if use_transactions then
        (if dry_run = true ∨ result.has_errors = true
          then [Ev.rollback] else [Ev.commit]) ++ [Ev.leaveTx]
      else []
    (.ok result, evs ++ tx_close)

/-- Source `Resource.import_data` (lines 392-491): resolves effective
transaction usage, enters transaction management when enabled and forces the
per-row dry flag to false, runs the before-import hook (a failure is a base
error; under `raise_errors` it rolls back and re-raises before any row),
processes all rows, and finally commits or rolls back.  Returns the Result
(or the propagated exception) together with the full event trace. -/
def import_data (env : Env) (dataset : List Row) (dry_run raise_errors : Bool)
    (use_transactions_arg : Option Bool) : Except String Result × List Ev :=
  let use_transactions := effective_use_transactions env use_transactions_arg
  let real_dry_run := real_dry_of env dry_run use_transactions_arg
  let tx_open : List Ev := if use_transactions then [Ev.enterTx] else []
  match env.before_import dataset real_dry_run with
  | .error e =>
    if raise_errors then
      (.error e, tx_open ++ tx_abort use_transactions)
    else
      let out := run_rows env real_dry_run raise_errors use_transactions
        dataset
      let fin := finish_import dry_run use_transactions [mk_error e] out
      (fin.1, tx_open ++ fin.2)
  | .ok _ =>
    let out := run_rows env real_dry_run raise_errors use_transactions dataset
    let fin := finish_import dry_run use_transactions [] out
    (fin.1, tx_open ++ fin.2)

/-- The RowResult a row ends up with after the row-level except handler: the
`process_row` outcome, with the caught exception appended as one Error. -/
def final_row_result (env : Env) (real_dry_run : Bool) (row : Row) :
    RowResult :=
  match process_row env real_dry_run row with
  | (rr, _, some e) => { rr with errors := rr.errors ++ [mk_error e] }
  | (rr, _, none) => rr

/-! ### Helper notions for the theorems: event counting and classification -/

/-- Count the events satisfying a Boolean predicate. -/
def countB (p : Ev → Bool) : List Ev → Nat
  | [] => 0
  | x :: t => (if p x then 1 else 0) + countB p t

/-- Count the occurrences of one event. -/
def countEv (e : Ev) (l : List Ev) : Nat :=
  countB (fun x => x == e) l

/-- Transaction-management events. -/
def Ev.isTx : Ev → Bool
  | .enterTx => true
  | .rollback => true
  | .commit => true
  | .leaveTx => true
  | _ => false

/-- Row-start markers. -/
def Ev.isRowStart : Ev → Bool
  | .rowStart _ => true
  | _ => false

/-- Events that only row bodies emit (save/delete/m2m invocations, store
calls, field assignments). -/
def Ev.fromRowBody : Ev → Bool
  | .saveInstanceCall _ => true
  | .storeSave => true
  | .saveM2MCall _ => true
  | .deleteInstanceCall _ => true
  | .storeDelete => true
  | .applyField _ => true
  | _ => false

/-- A concrete scalar field used by the concrete test environments. -/
def fName : Field :=
  { attrib := some "name", column_name := "name", is_m2m := false }

/-- A concrete many-to-many field used by the concrete test environments. -/
def fTags : Field :=
  { attrib := some "tags", column_name := "tags", is_m2m := true }

/-- A concrete environment: two fields, transactions off by default, a loader
that finds nothing, and a widget whose cleaning fails on the cell "bad". -/
def envA : Env where
  fields := [fName, fTags]
  skip_unchanged := false
  report_skipped := true
  meta_use_transactions := none
  settings_use_transactions := false
  get_instance := fun _ => .ok none
  init_instance := fun _ => .ok {}
  for_delete := fun _ _ => .ok false
  clean := fun _ c =>
    if c = "bad" then .error "ValueError" else .ok (Value.scalar c)
  store_save := fun i => .ok { i with pk := some 1 }
  store_delete := fun _ => .ok ()
  export_field := fun _ i => i.str_repr
  diff2 := fun a b => String.append a b
  str_of := fun i => i.str_repr
  before_import := fun _ _ => .ok ()

/-- A row whose "name" cell fails widget cleaning in `envA`. -/
def rowBad : Row := [("name", "bad")]

/-- A row that imports cleanly in `envA`. -/
def rowOK : Row := [("name", "Alice"), ("tags", "x")]

/-- A found instance used by the concrete environments. -/
def instA : Instance :=
  { attrs := [("name", Value.scalar "Alice"), ("tags", Value.many [])] }

/-- `envA` with the loader returning `instA`. -/
def envB : Env := { envA with get_instance := fun _ => .ok (some instA) }

/-- `envB` with skip-unchanged on and skipped-row reporting off. -/
def envC : Env := { envB with skip_unchanged := true, report_skipped := false }

/-- `envB` with every row marked for deletion. -/
def envD : Env := { envB with for_delete := fun _ _ => .ok true }

/-- `envA` whose loader returns an existing but falsy instance. -/
def envE : Env :=
  { envA with get_instance := fun _ => .ok (some { instA with py_bool := false }) }

/-- `envA` with a failing before-import hook. -/
def envF : Env := { envA with before_import := fun _ _ => .error "HookError" }

/-- The partial RowResult `process_row envA false rowBad` errors out with. -/
def rrBad : RowResult :=
  { import_type := some ImportType.NEW, new_record := some true }

/-- A row matching `instA` field-for-field (the "tags" column is absent). -/
def rowAlice : Row := [("name", "Alice")]

/-- Intermediate instances of the `rowOK` import in `envA`: after field
application, after store save, and after the m2m pass. -/
def instN1 : Instance := { attrs := [("name", Value.scalar "Alice")] }

/-- The instance after the store assigned a primary key. -/
def instN2 : Instance :=
  { attrs := [("name", Value.scalar "Alice")], pk := some 1 }

/-- The instance after the m2m pass applied the "tags" column. -/
def instN3 : Instance :=
  { attrs := [("name", Value.scalar "Alice"), ("tags", Value.scalar "x")]
    pk := some 1 }

/-- The RowResult produced for `rowOK` in `envA`. -/
def rrOKnew : RowResult :=
  { import_type := some ImportType.NEW
    diff := some ["", ""]
    errors := []
    object_repr := some ""
    object_id := some 1
    new_record := some true }

lemma countB_append (p : Ev → Bool) (l1 l2 : List Ev) :
    countB p (l1 ++ l2) = countB p l1 + countB p l2 := by
  induction l1 with
  | nil => simp [countB]
  | cons x t ih => simp [countB, ih]; omega

lemma countB_eq_zero (p : Ev → Bool) (l : List Ev)
    (h : ∀ ev ∈ l, p ev = false) : countB p l = 0 := by
  induction l with
  | nil => rfl
  | cons x t ih =>
    have hx := h x (List.mem_cons_self x t)
    simp [countB, hx]
    exact ih (fun ev hev => h ev (List.mem_cons_of_mem x hev))

lemma import_field_events (env : Env) (f : Field) (obj : Instance) (data : Row) :
    ∀ ev ∈ (import_field env f obj data).1, ∃ c, ev = Ev.applyField c := by
  unfold import_field
  split
  · split <;> simp_all
  · simp

lemma import_fields_events (env : Env) (fs : List Field) (obj : Instance)
    (data : Row) :
    ∀ ev ∈ (import_fields env fs obj data).1, ∃ c, ev = Ev.applyField c := by
  induction fs generalizing obj with
  | nil => simp [import_fields]
  | cons f rest ih =>
    intro ev hev
    unfold import_fields at hev
    rcases hr : (import_field env f obj data).2 with e | obj1 <;>
      simp only [hr] at hev
    · exact import_field_events env f obj data ev hev
    · rcases List.mem_append.mp hev with h1 | h2
      · exact import_field_events env f obj data ev h1
      · exact ih obj1 ev h2

lemma import_fields_fromRowBody (env : Env) (fs : List Field) (obj : Instance)
    (data : Row) :
    ∀ ev ∈ (import_fields env fs obj data).1, Ev.fromRowBody ev = true := by
  intro ev hev
  obtain ⟨c, rfl⟩ := import_fields_events env fs obj data ev hev
  rfl

lemma save_instance_events (env : Env) (inst : Instance) (dry : Bool) :
    ∀ ev ∈ (save_instance env inst dry).1, Ev.fromRowBody ev = true := by
  intro ev hev
  unfold save_instance at hev
  split at hev
  · fin_cases hev <;> rfl
  · split at hev <;> fin_cases hev <;> rfl

lemma delete_instance_events (env : Env) (inst : Instance) (dry : Bool) :
    ∀ ev ∈ (delete_instance env inst dry).1, Ev.fromRowBody ev = true := by
  intro ev hev
  unfold delete_instance at hev
  split at hev
  · fin_cases hev <;> rfl
  · split at hev <;> fin_cases hev <;> rfl

lemma save_m2m_events (env : Env) (obj : Instance) (data : Row) (dry : Bool) :
    ∀ ev ∈ (save_m2m env obj data dry).1, Ev.fromRowBody ev = true := by
  unfold save_m2m
  split
  · simp [Ev.fromRowBody]
  · intro ev hev
    simp only [List.mem_cons] at hev
    rcases hev with h | h
    · simp [h, Ev.fromRowBody]
    · exact import_fields_fromRowBody env _ obj data ev h

lemma process_row_events (env : Env) (rd : Bool) (row : Row) :
    ∀ ev ∈ (process_row env rd row).2.1, Ev.fromRowBody ev = true := by
  unfold process_row
  rcases hg : get_or_init_instance env row with e | ⟨inst, nw⟩
  · simp
  · simp only
    rcases hfd : env.for_delete row inst with e | fd
    · simp
    · simp only
      rcases fd with _ | _
      · simp only [Bool.false_eq_true, if_false]
        rcases h1 : (import_obj env inst row rd).2 with e | inst1
        · simp only
          intro ev hev
          exact import_fields_fromRowBody env _ inst row ev hev
        · simp only
          by_cases hs : skip_row env inst1 inst
          · simp only [hs, if_true]
            intro ev hev
            exact import_fields_fromRowBody env _ inst row ev hev
          · simp only [hs, if_false]
            rcases h2 : (save_instance env inst1 rd).2 with e | inst2
            · simp only
              intro ev hev
              rcases List.mem_append.mp hev with h | h
              · exact import_fields_fromRowBody env _ inst row ev h
              · exact save_instance_events env inst1 rd ev h
            · simp only
              rcases h3 : (save_m2m env inst2 row rd).2 with e | inst3 <;>
                simp only <;> intro ev hev <;>
                rcases List.mem_append.mp hev with h | h
              · rcases List.mem_append.mp h with h4 | h4
                · exact import_fields_fromRowBody env _ inst row ev h4
                · exact save_instance_events env inst1 rd ev h4
              · exact save_m2m_events env inst2 row rd ev h
              · rcases List.mem_append.mp h with h4 | h4
                · exact import_fields_fromRowBody env _ inst row ev h4
                · exact save_instance_events env inst1 rd ev h4
              · exact save_m2m_events env inst2 row rd ev h
      · simp only [if_true]
        rcases nw with _ | _
        · simp only [Bool.false_eq_true, if_false]
          rcases hd : (delete_instance env inst rd).2 with e | u <;>
            simp only <;> intro ev hev <;>
            exact delete_instance_events env inst rd ev hev
        · simp

lemma process_row_countB (env : Env) (rd : Bool) (row : Row) (p : Ev → Bool)
    (hp : ∀ ev, Ev.fromRowBody ev = true → p ev = false) :
    countB p (process_row env rd row).2.1 = 0 :=
  countB_eq_zero p _ (fun ev hev => hp ev (process_row_events env rd row ev hev))

lemma run_rows_oerr_none (env : Env) (rd ut : Bool) (ds : List Row) :
    (run_rows env rd false ut ds).2.2 = none := by
  induction ds with
  | nil => rfl
  | cons row rest ih =>
    rcases h : process_row env rd row with ⟨rr, evs, oerr⟩
    rcases h2 : run_rows env rd false ut rest with ⟨rs, evs2, oerr2⟩
    rw [h2] at ih
    simp only at ih
    rcases oerr with _ | e <;> simp [run_rows, h, h2, ih]

lemma run_rows_countB (env : Env) (rd re ut : Bool) (ds : List Row)
    (p : Ev → Bool)
    (hp : ∀ ev, Ev.fromRowBody ev = true → p ev = false)
    (hrs : ∀ d, p (Ev.rowStart d) = false) :
    countB p (run_rows env rd re ut ds).2.1 =
      (match (run_rows env rd re ut ds).2.2 with
       | some _ => countB p (tx_abort ut)
       | none => 0) := by
  induction ds with
  | nil => simp [run_rows, countB]
  | cons row rest ih =>
    rcases h : process_row env rd row with ⟨rr, evs, oerr⟩
    have hpr : countB p evs = 0 := by
      have h3 := process_row_countB env rd row p hp
      rw [h] at h3
      exact h3
    rcases h2 : run_rows env rd re ut rest with ⟨rs, evs2, oerr2⟩
    rw [h2] at ih
    simp only at ih
    rcases oerr with _ | e
    · simp only [run_rows, h, h2]
      simp [countB, countB_append, hrs, hpr, ih]
    · rcases re with _ | _
      · simp only [run_rows, h, h2]
        simp [countB, countB_append, hrs, hpr, ih]
      · simp only [run_rows, h, if_true]
        simp [countB, countB_append, hrs, hpr]

lemma run_rows_rowStart_dry (env : Env) (rd re ut : Bool) (ds : List Row)
    (d : Bool) (h : Ev.rowStart d ∈ (run_rows env rd re ut ds).2.1) :
    d = rd := by
  induction ds with
  | nil => simp [run_rows] at h
  | cons row rest ih =>
    rcases hp : process_row env rd row with ⟨rr, evs, oerr⟩
    have hpr : Ev.rowStart d ∉ evs := by
      intro hmem
      have h3 := process_row_events env rd row (Ev.rowStart d) (by rw [hp]; exact hmem)
      simp [Ev.fromRowBody] at h3
    rcases h2 : run_rows env rd re ut rest with ⟨rs, evs2, oerr2⟩
    rw [h2] at ih
    simp only at ih
    rcases oerr with _ | e
    · simp only [run_rows, hp, h2, List.mem_cons, List.mem_append] at h
      rcases h with h | h | h
      · injection h
      · exact absurd h hpr
      · exact ih h
    · rcases re with _ | _
      · simp only [run_rows, hp, h2, Bool.false_eq_true, if_false,
          List.mem_cons, List.mem_append] at h
        rcases h with h | h | h
        · injection h
        · exact absurd h hpr
        · exact ih h
      · simp only [run_rows, hp, if_true, List.mem_cons,
          List.mem_append] at h
        rcases h with h | h | h
        · injection h
        · exact absurd h hpr
        · unfold tx_abort at h
          rcases ut with _ | _ <;> simp at h

lemma run_rows_rowStart_count (env : Env) (rd re ut : Bool) (ds : List Row)
    (h : (run_rows env rd re ut ds).2.2 = none) :
    countB Ev.isRowStart (run_rows env rd re ut ds).2.1 = ds.length := by
  induction ds with
  | nil => simp [run_rows, countB]
  | cons row rest ih =>
    rcases hp : process_row env rd row with ⟨rr, evs, oerr⟩
    have hpr : countB Ev.isRowStart evs = 0 := by
      have h3 := process_row_countB env rd row Ev.isRowStart
        (by intro ev hev; rcases ev <;> simp_all [Ev.fromRowBody, Ev.isRowStart])
      rw [hp] at h3
      exact h3
    rcases h2 : run_rows env rd re ut rest with ⟨rs, evs2, oerr2⟩
    rw [h2] at ih
    simp only at ih
    rcases oerr with _ | e
    · rw [run_rows, hp, h2] at h ⊢
      simp only at h
      simp [countB, countB_append, hpr, Ev.isRowStart, ih h]
      omega
    · rcases re with _ | _
      · rw [run_rows, hp, h2] at h ⊢
        simp only [Bool.false_eq_true, if_false] at h ⊢
        simp [countB, countB_append, hpr, Ev.isRowStart, ih h]
        omega
      · rw [run_rows, hp] at h
        simp at h

lemma run_rows_rows_eq (env : Env) (rd re ut : Bool) (ds : List Row)
    (h : (run_rows env rd re ut ds).2.2 = none) :
    (run_rows env rd re ut ds).1 =
      (ds.map (final_row_result env rd)).filter (keep_row env.report_skipped) := by
  induction ds with
  | nil => simp [run_rows]
  | cons row rest ih =>
    rcases hp : process_row env rd row with ⟨rr, evs, oerr⟩
    rcases h2 : run_rows env rd re ut rest with ⟨rs, evs2, oerr2⟩
    rw [h2] at ih
    simp only at ih
    rcases oerr with _ | e
    · rw [run_rows, hp, h2] at h ⊢
      simp only at h
      simp only [List.map_cons, List.filter_cons, final_row_result, hp]
      rw [record_row, ih h]
    · rcases re with _ | _
      · rw [run_rows, hp, h2] at h ⊢
        simp only [Bool.false_eq_true, if_false] at h ⊢
        simp only [List.map_cons, List.filter_cons, final_row_result, hp]
        rw [record_row, ih h]
      · rw [run_rows, hp] at h
        simp at h

lemma fromRowBody_not_tx (ev : Ev) (h : Ev.fromRowBody ev = true) :
    Ev.isTx ev = false := by
  rcases ev <;> simp_all [Ev.fromRowBody, Ev.isTx]

lemma fromRowBody_not_rowStart (ev : Ev) (h : Ev.fromRowBody ev = true) :
    Ev.isRowStart ev = false := by
  rcases ev <;> simp_all [Ev.fromRowBody, Ev.isRowStart]

lemma countEv_run_rows_tx (env : Env) (rd re ut : Bool) (ds : List Row)
    (e0 : Ev) (h0 : Ev.isTx e0 = true) :
    countEv e0 (run_rows env rd re ut ds).2.1 =
      (match (run_rows env rd re ut ds).2.2 with
       | some _ => countEv e0 (tx_abort ut)
       | none => 0) := by
  unfold countEv
  apply run_rows_countB
  · intro ev hev
    have h1 := fromRowBody_not_tx ev hev
    rw [beq_eq_false_iff_ne]
    intro heq
    rw [heq, h0] at h1
    cases h1
  · intro d
    rw [beq_eq_false_iff_ne]
    intro heq
    rw [← heq] at h0
    simp [Ev.isTx] at h0

lemma countEv_cons (e0 x : Ev) (l : List Ev) :
    countEv e0 (x :: l) = (if x = e0 then 1 else 0) + countEv e0 l := by
  simp [countEv, countB]

lemma countEv_tx_abort_true (e0 : Ev) :
    countEv e0 (tx_abort true) =
      (if e0 = Ev.rollback then 1 else 0) +
        (if e0 = Ev.leaveTx then 1 else 0) := by
  rcases e0 <;> simp [tx_abort, countEv, countB]

lemma finish_close_counts (dry : Bool) (bErrs : List Error)
    (rs : List RowResult) (evs : List Ev)
    (h1 : countEv Ev.enterTx evs = 0) (h2 : countEv Ev.leaveTx evs = 0)
    (h3 : countEv Ev.commit evs = 0) (h4 : countEv Ev.rollback evs = 0) :
    countEv Ev.enterTx (finish_import dry true bErrs (rs, evs, none)).2 = 0 ∧
    countEv Ev.leaveTx (finish_import dry true bErrs (rs, evs, none)).2 = 1 ∧
    countEv Ev.commit (finish_import dry true bErrs (rs, evs, none)).2 +
      countEv Ev.rollback (finish_import dry true bErrs (rs, evs, none)).2
      = 1 := by
  unfold finish_import
  simp only
  by_cases hc : dry = true ∨ Result.has_errors ⟨bErrs, rs⟩ = true <;>
    simp_all [countEv, countB_append, countB]

/-- C8: in every execution of `import_data` with transactions enabled, at
most one transaction is opened; the trace begins with the single transaction
entry (hence the entry precedes every row event), and the transaction is
exited exactly once — by exactly one commit-or-rollback — on every execution
path, including paths where the before-import hook or a row raises. -/
theorem C8_transaction_envelope (env : Env) (ds : List Row) (dry re : Bool)
    (ua : Option Bool)
    (hut : effective_use_transactions env ua = true) :
    ∃ tl, (import_data env ds dry re ua).2 = Ev.enterTx :: tl ∧
      countEv Ev.enterTx tl = 0 ∧
      countEv Ev.leaveTx (import_data env ds dry re ua).2 = 1 ∧
      countEv Ev.commit (import_data env ds dry re ua).2 +
        countEv Ev.rollback (import_data env ds dry re ua).2 = 1 := by
  have hrd : real_dry_of env dry ua = false := by
    unfold real_dry_of
    rw [hut]
    rfl
  have habort : ∀ (re2 : Bool) (bErrs : List Error),
      ∃ tl, (finish_import dry true bErrs
          (run_rows env false re2 true ds)).2 = tl ∧
        countEv Ev.enterTx tl = 0 ∧
        countEv Ev.leaveTx tl = 1 ∧
        countEv Ev.commit tl + countEv Ev.rollback tl = 1 := by
    intro re2 bErrs
    rcases ho : run_rows env false re2 true ds with ⟨rs, evs, oerr⟩
    rcases oerr with _ | e2
    · have hz : ∀ e0, Ev.isTx e0 = true → countEv e0 evs = 0 := by
        intro e0 h0
        have hc := countEv_run_rows_tx env false re2 true ds e0 h0
        simp only [ho] at hc
        simpa using hc
      obtain ⟨c1, c2, c3⟩ := finish_close_counts dry bErrs rs evs
        (hz Ev.enterTx rfl) (hz Ev.leaveTx rfl)
        (hz Ev.commit rfl) (hz Ev.rollback rfl)
      exact ⟨_, rfl, c1, c2, by omega⟩
    · have hz : ∀ e0, Ev.isTx e0 = true →
          countEv e0 evs = countEv e0 (tx_abort true) := by
        intro e0 h0
        have hc := countEv_run_rows_tx env false re2 true ds e0 h0
        simp only [ho] at hc
        simpa using hc
      refine ⟨evs, rfl, ?_, ?_, ?_⟩
      · have h5 := hz Ev.enterTx rfl
        simpa [countEv_tx_abort_true] using h5
      · have h5 := hz Ev.leaveTx rfl
        simpa [countEv_tx_abort_true] using h5
      · have h5 := hz Ev.commit rfl
        have h6 := hz Ev.rollback rfl
        simp only [countEv_tx_abort_true] at h5 h6
        simp at h5 h6
        omega
  simp only [import_data, hut, hrd, if_true]
  rcases hb : env.before_import ds false with e | u
  · rcases re with _ | _
    · simp only [Bool.false_eq_true, if_false]
      obtain ⟨tl, htl, c1, c2, c3⟩ := habort false [mk_error e]
      refine ⟨(finish_import dry true [mk_error e]
          (run_rows env false false true ds)).2, rfl, ?_, ?_, ?_⟩
      · rw [htl]; exact c1
      · simp only [List.singleton_append, countEv_cons]
        rw [htl]
        simp [c2]
      · simp only [List.singleton_append, countEv_cons]
        rw [htl]
        simp
        omega
    · simp only [if_true]
      refine ⟨[Ev.rollback, Ev.leaveTx], by simp [tx_abort], ?_, ?_, ?_⟩ <;>
        simp [tx_abort, countEv, countB]
  · obtain ⟨tl, htl, c1, c2, c3⟩ := habort re []
    refine ⟨(finish_import dry true []
        (run_rows env false re true ds)).2, rfl, ?_, ?_, ?_⟩
    · rw [htl]; exact c1
    · simp only [List.singleton_append, countEv_cons]
      rw [htl]
      simp [c2]
    · simp only [List.singleton_append, countEv_cons]
      rw [htl]
      simp
      omega

lemma rowStart_not_mem_close (dry : Bool) (res : Result) (d : Bool) :
    Ev.rowStart d ∉ ((if dry = true ∨ res.has_errors = true
        then [Ev.rollback] else [Ev.commit]) ++ [Ev.leaveTx]) := by
  by_cases hc : dry = true ∨ res.has_errors = true <;> simp [hc]

lemma countEv_close (dry : Bool) (res : Result) (e0 : Ev) :
    countEv e0 ((if dry = true ∨ res.has_errors = true
        then [Ev.rollback] else [Ev.commit]) ++ [Ev.leaveTx]) =
      (if dry = true ∨ res.has_errors = true
        then (if e0 = Ev.rollback then 1 else 0)
        else (if e0 = Ev.commit then 1 else 0)) +
        (if e0 = Ev.leaveTx then 1 else 0) := by
  by_cases hc : dry = true ∨ res.has_errors = true <;>
    rcases e0 <;> simp [hc, countEv, countB]

lemma finish_trace_eq (dry : Bool) (bErrs : List Error)
    (rs : List RowResult) (evs : List Ev) :
    (finish_import dry true bErrs (rs, evs, none)).2 =
      evs ++ ((if dry = true ∨ (Result.has_errors ⟨bErrs, rs⟩) = true
        then [Ev.rollback] else [Ev.commit]) ++ [Ev.leaveTx]) := by
  simp [finish_import]

lemma countEv_assemble (e0 : Ev) (evs close : List Ev)
    (hz : countEv e0 evs = 0) (hne : Ev.enterTx ≠ e0) :
    countEv e0 (Ev.enterTx :: (evs ++ close)) = countEv e0 close := by
  rw [countEv_cons]
  unfold countEv at hz ⊢
  rw [countB_append]
  simp [hz, hne]

/-- C2: with transactions enabled, every row is processed with the per-row
dry flag forced to false regardless of the caller's dry_run argument, and on
normal completion the transaction is committed iff the caller's dry_run flag
is false and the returned Result has no errors; otherwise it is rolled
back. -/
theorem C2_transactions_force_dry_and_commit (env : Env) (ds : List Row)
    (dry re : Bool) (ua : Option Bool) (res : Result)
    (hut : effective_use_transactions env ua = true)
    (hok : (import_data env ds dry re ua).1 = .ok res) :
    (∀ d, Ev.rowStart d ∈ (import_data env ds dry re ua).2 → d = false) ∧
    ((dry = false ∧ res.has_errors = false) →
      countEv Ev.commit (import_data env ds dry re ua).2 = 1 ∧
      countEv Ev.rollback (import_data env ds dry re ua).2 = 0) ∧
    ((dry = true ∨ res.has_errors = true) →
      countEv Ev.rollback (import_data env ds dry re ua).2 = 1 ∧
      countEv Ev.commit (import_data env ds dry re ua).2 = 0) := by
  have hrd : real_dry_of env dry ua = false := by
    unfold real_dry_of
    rw [hut]
    rfl
  have hmain : ∀ (re2 : Bool) (bErrs : List Error)
      (rs : List RowResult) (evs : List Ev),
      run_rows env false re2 true ds = (rs, evs, none) →
      res = ⟨bErrs, rs⟩ →
      (∀ d, Ev.rowStart d ∈
          Ev.enterTx :: (finish_import dry true bErrs (rs, evs, none)).2 →
          d = false) ∧
      ((dry = false ∧ res.has_errors = false) →
        countEv Ev.commit
          (Ev.enterTx :: (finish_import dry true bErrs (rs, evs, none)).2) = 1 ∧
        countEv Ev.rollback
          (Ev.enterTx :: (finish_import dry true bErrs (rs, evs, none)).2) = 0) ∧
      ((dry = true ∨ res.has_errors = true) →
        countEv Ev.rollback
          (Ev.enterTx :: (finish_import dry true bErrs (rs, evs, none)).2) = 1 ∧
        countEv Ev.commit
          (Ev.enterTx :: (finish_import dry true bErrs (rs, evs, none)).2) = 0) := by
    intro re2 bErrs rs evs ho hres
    have hzc : countEv Ev.commit evs = 0 := by
      have hc := countEv_run_rows_tx env false re2 true ds Ev.commit rfl
      simp only [ho] at hc
      simpa using hc
    have hzr : countEv Ev.rollback evs = 0 := by
      have hc := countEv_run_rows_tx env false re2 true ds Ev.rollback rfl
      simp only [ho] at hc
      simpa using hc
    simp only [finish_trace_eq]
    refine ⟨?_, ?_, ?_⟩
    · intro d hd
      simp only [List.mem_cons, List.mem_append] at hd
      rcases hd with hd | hd | hd | hd | hd
      · exact absurd hd (by simp)
      · exact run_rows_rowStart_dry env false re2 true ds d (by rw [ho]; exact hd)
      · by_cases hc : dry = true ∨ Result.has_errors ⟨bErrs, rs⟩ = true <;>
          simp [hc] at hd
      · exact absurd hd (by simp)
      · simp at hd
    · intro hcond
      rw [hres] at hcond
      have hcx : ¬(dry = true ∨ Result.has_errors ⟨bErrs, rs⟩ = true) := by
        rcases hcond with ⟨h5, h6⟩
        subst h5
        simp [h6]
      constructor
      · rw [countEv_assemble Ev.commit evs _ hzc (by simp),
          countEv_close dry ⟨bErrs, rs⟩ Ev.commit]
        simp [hcx]
      · rw [countEv_assemble Ev.rollback evs _ hzr (by simp),
          countEv_close dry ⟨bErrs, rs⟩ Ev.rollback]
        simp [hcx]
    · intro hcond
      rw [hres] at hcond
      constructor
      · rw [countEv_assemble Ev.rollback evs _ hzr (by simp),
          countEv_close dry ⟨bErrs, rs⟩ Ev.rollback]
        simp [hcond]
      · rw [countEv_assemble Ev.commit evs _ hzc (by simp),
          countEv_close dry ⟨bErrs, rs⟩ Ev.commit]
        simp [hcond]
  simp only [import_data, hut, hrd, if_true] at hok ⊢
  rcases hb : env.before_import ds false with e | u
  · rcases re with _ | _
    · simp only [hb, Bool.false_eq_true, if_false] at hok ⊢
      rcases ho : run_rows env false false true ds with ⟨rs, evs, oerr⟩
      have hnone := run_rows_oerr_none env false true ds
      rw [ho] at hnone
      simp only at hnone
      subst hnone
      have hres : res = ⟨[mk_error e], rs⟩ := by
        rw [ho] at hok
        have h5 : Except.ok (⟨[mk_error e], rs⟩ : Result) = Except.ok res := hok
        injection h5 with h6
        exact h6.symm
      simpa using hmain false [mk_error e] rs evs ho hres
    · simp only [hb, if_true] at hok
      cases hok
  · simp only [hb] at hok ⊢
    rcases ho : run_rows env false re true ds with ⟨rs, evs, oerr⟩
    rcases oerr with _ | e2
    · have hres : res = ⟨[], rs⟩ := by
        rw [ho] at hok
        have h5 : Except.ok (⟨[], rs⟩ : Result) = Except.ok res := hok
        injection h5 with h6
        exact h6.symm
      simpa using hmain re [] rs evs ho hres
    · rw [ho] at hok
      have h5 : (Except.error e2 : Except String Result) = Except.ok res := hok
      cases h5

/-- C3: whenever `import_data` returns a Result, its row sequence holds
exactly one RowResult per dataset row, in dataset order, except that a row
whose final import_type is SKIP is omitted when the report_skipped option is
false; no other row — errored rows included — is omitted. -/
theorem C3_one_rowresult_per_row (env : Env) (ds : List Row)
    (dry re : Bool) (ua : Option Bool) (res : Result)
    (hok : (import_data env ds dry re ua).1 = .ok res) :
    res.rows = (ds.map (final_row_result env (real_dry_of env dry ua))).filter
      (keep_row env.report_skipped) := by
  have key : ∀ (rs : List RowResult) (evs : List Ev) (re2 : Bool),
      run_rows env (real_dry_of env dry ua) re2
        (effective_use_transactions env ua) ds = (rs, evs, none) →
      res.rows = rs →
      res.rows = (ds.map (final_row_result env (real_dry_of env dry ua))).filter
        (keep_row env.report_skipped) := by
    intro rs evs re2 ho hr
    rw [hr]
    have h5 := run_rows_rows_eq env (real_dry_of env dry ua) re2
      (effective_use_transactions env ua) ds (by rw [ho])
    rw [ho] at h5
    exact h5
  simp only [import_data] at hok
  rcases hb : env.before_import ds (real_dry_of env dry ua) with e | u
  · simp only [hb] at hok
    rcases re with _ | _
    · simp only [Bool.false_eq_true, if_false] at hok
      rcases ho : run_rows env (real_dry_of env dry ua) false
          (effective_use_transactions env ua) ds with ⟨rs, evs, oerr⟩
      have hnone := run_rows_oerr_none env (real_dry_of env dry ua)
        (effective_use_transactions env ua) ds
      rw [ho] at hnone
      simp only at hnone
      subst hnone
      rw [ho] at hok
      have h5 : Except.ok (⟨[mk_error e], rs⟩ : Result) = Except.ok res := hok
      injection h5 with h6
      exact key rs evs false ho (by rw [← h6])
    · simp only [if_true] at hok
      cases hok
  · simp only [hb] at hok
    rcases ho : run_rows env (real_dry_of env dry ua) re
        (effective_use_transactions env ua) ds with ⟨rs, evs, oerr⟩
    rcases oerr with _ | e2
    · rw [ho] at hok
      have h5 : Except.ok (⟨[], rs⟩ : Result) = Except.ok res := hok
      injection h5 with h6
      exact key rs evs re ho (by rw [← h6])
    · rw [ho] at hok
      have h5 : (Except.error e2 : Except String Result) = Except.ok res := hok
      cases h5

lemma process_row_errors_nil (env : Env) (rd : Bool) (row : Row) :
    (process_row env rd row).1.errors = [] := by
  unfold process_row
  rcases hg : get_or_init_instance env row with e | ⟨inst, nw⟩
  · rfl
  · simp only
    rcases hfd : env.for_delete row inst with e | fd
    · rfl
    · simp only
      rcases fd with _ | _
      · simp only [Bool.false_eq_true, if_false]
        rcases h1 : (import_obj env inst row rd).2 with e | inst1
        · rfl
        · simp only
          by_cases hs : skip_row env inst1 inst
          · simp only [hs, if_true]
          · simp only [hs, if_false]
            rcases h2 : (save_instance env inst1 rd).2 with e | inst2
            · rfl
            · simp only
              rcases h3 : (save_m2m env inst2 row rd).2 with e | inst3 <;> rfl
      · simp only [if_true]
        rcases nw with _ | _
        · simp only [Bool.false_eq_true, if_false]
          rcases hd : (delete_instance env inst rd).2 with e | u <;> rfl
        · rfl

lemma import_data_ok_of_not_raise (env : Env) (ds : List Row) (dry : Bool)
    (ua : Option Bool) :
    ∃ res, (import_data env ds dry false ua).1 = .ok res := by
  simp only [import_data]
  rcases ho : run_rows env (real_dry_of env dry ua) false
      (effective_use_transactions env ua) ds with ⟨rs, evs, oerr⟩
  have hnone := run_rows_oerr_none env (real_dry_of env dry ua)
    (effective_use_transactions env ua) ds
  rw [ho] at hnone
  simp only at hnone
  subst hnone
  rcases hb : env.before_import ds (real_dry_of env dry ua) with e | u
  · exact ⟨⟨[mk_error e], rs⟩, by simp [hb, ho, finish_import]⟩
  · exact ⟨⟨[], rs⟩, by simp [hb, ho, finish_import]⟩

/-- C1 (amended): with raise_errors false, an exception raised during a
row's processing is caught, exactly one Error (wrapping the exception and a
captured trace) is appended to that row's RowResult.errors, the row's
import_type retains the value it had when the exception escaped (it is not
set to ERROR), processing continues with the remaining rows, and
`import_data` always completes with a Result. -/
theorem C1_row_error_isolated (env : Env) (rd ut dry : Bool)
    (ua : Option Bool) (row : Row) (rest ds : List Row)
    (rr : RowResult) (evs : List Ev) (e : String)
    (hpr : process_row env rd row = (rr, evs, some e)) :
    rr.errors = [] ∧
    run_rows env rd false ut (row :: rest) =
      (record_row env.report_skipped
         { rr with errors := rr.errors ++ [mk_error e] }
         (run_rows env rd false ut rest).1,
       Ev.rowStart rd :: (evs ++ (run_rows env rd false ut rest).2.1),
       (run_rows env rd false ut rest).2.2) ∧
    (run_rows env rd false ut (row :: rest)).2.2 = none ∧
    (∃ res, (import_data env ds dry false ua).1 = .ok res) := by
  have hnil : rr.errors = [] := by
    have h5 := process_row_errors_nil env rd row
    rw [hpr] at h5
    exact h5
  refine ⟨hnil, ?_, run_rows_oerr_none env rd ut (row :: rest),
    import_data_ok_of_not_raise env ds dry ua⟩
  rw [run_rows, hpr]
  simp only [Bool.false_eq_true, if_false]

/-- Witness for C1 (amended) at a concrete environment: the bad cell of
`rowBad` makes widget cleaning raise inside the row, the error is caught and
recorded once, and the batch still completes. -/
theorem C1_row_error_isolated_witness :
    rrBad.errors = [] ∧
    run_rows envA false false false [rowBad] =
      (record_row envA.report_skipped
         { rrBad with errors := rrBad.errors ++ [mk_error "ValueError"] }
         (run_rows envA false false false []).1,
       Ev.rowStart false :: ([] ++ (run_rows envA false false false []).2.1),
       (run_rows envA false false false []).2.2) ∧
    (run_rows envA false false false [rowBad]).2.2 = none ∧
    (∃ res, (import_data envA [rowBad] false false none).1 = .ok res) :=
  C1_row_error_isolated envA false false false none rowBad [] [rowBad]
    rrBad [] "ValueError" rfl

/-- C1 counterexample: in `envA` the single row's cell "bad" raises during
field cleaning with raise_errors false; the exception is caught and exactly
one Error is recorded, but the recorded import_type is NEW, not ERROR — the
except handler of `import_data` never sets import_type to ERROR. -/
theorem C1_counterexample :
    (import_data envA [rowBad] false false none).1.toOption.map
        (fun r => (r.rows.map (fun rr => rr.errors.length),
                   r.rows.map (fun rr => rr.import_type))) =
      some ([1], [some ImportType.NEW]) ∧
    some ImportType.NEW ≠ some ImportType.ERROR := by
  constructor
  · rfl
  · decide

/-- Witness for C2: a concrete transactional run whose single row is
processed with the dry flag forced off and whose transaction commits. -/
theorem C2_transactions_force_dry_and_commit_witness :
    effective_use_transactions envA (some true) = true ∧
    (import_data envA [rowOK] false false (some true)).1 =
      .ok ⟨[], [rrOKnew]⟩ ∧
    ((∀ d, Ev.rowStart d ∈ (import_data envA [rowOK] false false (some true)).2 →
        d = false) ∧
     ((false = false ∧ (Result.mk [] [rrOKnew]).has_errors = false) →
       countEv Ev.commit (import_data envA [rowOK] false false (some true)).2 = 1 ∧
       countEv Ev.rollback (import_data envA [rowOK] false false (some true)).2 = 0) ∧
     ((false = true ∨ (Result.mk [] [rrOKnew]).has_errors = true) →
       countEv Ev.rollback (import_data envA [rowOK] false false (some true)).2 = 1 ∧
       countEv Ev.commit (import_data envA [rowOK] false false (some true)).2 = 0)) :=
  ⟨rfl, rfl, C2_transactions_force_dry_and_commit envA [rowOK] false false
    (some true) ⟨[], [rrOKnew]⟩ rfl rfl⟩

/-- Witness for C3: a concrete run where the unchanged row is skipped and,
with report_skipped off, omitted from the recorded sequence. -/
theorem C3_one_rowresult_per_row_witness :
    (import_data envC [rowAlice] false false none).1 = .ok {} ∧
    (Result.rows {} =
      (([rowAlice]).map (final_row_result envC (real_dry_of envC false none))).filter
        (keep_row envC.report_skipped)) :=
  ⟨rfl, C3_one_rowresult_per_row envC [rowAlice] false false none {} rfl⟩

/-- Witness for C8: a concrete transactional run (whose row errors) with the
single enter/rollback/leave envelope. -/
theorem C8_transaction_envelope_witness :
    effective_use_transactions envA (some true) = true ∧
    (∃ tl, (import_data envA [rowBad] false false (some true)).2 =
        Ev.enterTx :: tl ∧
      countEv Ev.enterTx tl = 0 ∧
      countEv Ev.leaveTx (import_data envA [rowBad] false false (some true)).2 = 1 ∧
      countEv Ev.commit (import_data envA [rowBad] false false (some true)).2 +
        countEv Ev.rollback
          (import_data envA [rowBad] false false (some true)).2 = 1) :=
  ⟨rfl, C8_transaction_envelope envA [rowBad] false false (some true) rfl⟩

/-- C4: skip_row returns false whenever the skip_unchanged option is
disabled; when enabled it returns true iff every field's value on the
post-mutation instance equals its value on the original snapshot, with
multi-valued relation fields compared by their full resolved member lists;
and when it returns true for a row, that row's import_type becomes SKIP and
neither save_instance nor save_m2m (nor any store call) happens. -/
theorem C4_skip_row_semantics (env : Env) (i o inst inst1 : Instance)
    (row : Row) (rd nw : Bool) (evs1 : List Ev)
    (hget : get_or_init_instance env row = .ok (inst, nw))
    (hfd : env.for_delete row inst = .ok false)
    (hobj : import_obj env inst row rd = (evs1, .ok inst1))
    (hskip : skip_row env inst1 inst = true) :
    (env.skip_unchanged = false → skip_row env i o = false) ∧
    (skip_row env i o = true ↔
      (env.skip_unchanged = true ∧
        env.fields.all
          (fun f => values_equal (f.get_value i) (f.get_value o)) = true)) ∧
    (process_row env rd row).1.import_type = some ImportType.SKIP ∧
    (∀ d, Ev.saveInstanceCall d ∉ (process_row env rd row).2.1) ∧
    (∀ d, Ev.saveM2MCall d ∉ (process_row env rd row).2.1) ∧
    Ev.storeSave ∉ (process_row env rd row).2.1 ∧
    Ev.storeDelete ∉ (process_row env rd row).2.1 := by
  have hevs : ∀ ev ∈ evs1, ∃ c, ev = Ev.applyField c := by
    have h5 := import_fields_events env
      (env.fields.filter (fun f => !f.is_m2m)) inst row
    have hobj2 := hobj
    unfold import_obj at hobj2
    rw [hobj2] at h5
    exact h5
  have hpr : process_row env rd row =
      ({ import_type := some ImportType.SKIP,
         diff := some (get_diff env (some inst) (some inst1) rd),
         errors := [], object_repr := none, object_id := none,
         new_record := some nw }, evs1, none) := by
    unfold process_row
    rw [hget]
    simp only
    rw [hfd]
    simp only [Bool.false_eq_true, if_false]
    rw [hobj]
    simp only [hskip, if_true]
  refine ⟨?_, ?_, ?_, ?_, ?_, ?_, ?_⟩
  · intro h
    unfold skip_row
    simp [h]
  · unfold skip_row
    rcases hsu : env.skip_unchanged <;> simp [hsu]
  · rw [hpr]
  · intro d hd
    rw [hpr] at hd
    obtain ⟨c, hc⟩ := hevs _ hd
    cases hc
  · intro d hd
    rw [hpr] at hd
    obtain ⟨c, hc⟩ := hevs _ hd
    cases hc
  · intro hd
    rw [hpr] at hd
    obtain ⟨c, hc⟩ := hevs _ hd
    cases hc
  · intro hd
    rw [hpr] at hd
    obtain ⟨c, hc⟩ := hevs _ hd
    cases hc

/-- Witness for C4 at a concrete environment: the row matching the loaded
instance field-for-field is skipped and nothing is saved. -/
theorem C4_skip_row_semantics_witness :
    (envC.skip_unchanged = false → skip_row envC instA instA = false) ∧
    (skip_row envC instA instA = true ↔
      (envC.skip_unchanged = true ∧
        envC.fields.all
          (fun f => values_equal (f.get_value instA) (f.get_value instA))
          = true)) ∧
    (process_row envC false rowAlice).1.import_type = some ImportType.SKIP ∧
    (∀ d, Ev.saveInstanceCall d ∉ (process_row envC false rowAlice).2.1) ∧
    (∀ d, Ev.saveM2MCall d ∉ (process_row envC false rowAlice).2.1) ∧
    Ev.storeSave ∉ (process_row envC false rowAlice).2.1 ∧
    Ev.storeDelete ∉ (process_row envC false rowAlice).2.1 :=
  C4_skip_row_semantics envC instA instA instA instA rowAlice false false
    [Ev.applyField "name"] rfl rfl rfl rfl

/-- C5: a row marked for deletion: when the instance was freshly allocated
the outcome is SKIP, no store call is made and the diff comes from two empty
snapshots; when the instance existed the outcome is DELETE, the store delete
is issued unless the effective dry flag is set, and the diff goes from the
original snapshot to an empty one. -/
theorem C5_delete_semantics (env : Env) (row : Row) (inst : Instance)
    (nw rd : Bool)
    (hget : get_or_init_instance env row = .ok (inst, nw))
    (hfd : env.for_delete row inst = .ok true) :
    (nw = true → process_row env rd row =
      ({ import_type := some ImportType.SKIP,
         diff := some (get_diff env none none rd),
         errors := [], object_repr := none, object_id := none,
         new_record := some true }, [], none)) ∧
    (nw = false → env.store_delete inst = .ok () →
      process_row env rd row =
        ({ import_type := some ImportType.DELETE,
           diff := some (get_diff env (some inst) none rd),
           errors := [], object_repr := none, object_id := none,
           new_record := some false },
         Ev.deleteInstanceCall rd :: (if rd then [] else [Ev.storeDelete]),
         none)) := by
  constructor
  · intro hnw
    subst hnw
    unfold process_row
    rw [hget]
    simp only
    rw [hfd]
    simp only [if_true]
  · intro hnw hdel
    subst hnw
    unfold process_row
    rw [hget]
    simp only
    rw [hfd]
    simp only [if_true, Bool.false_eq_true, if_false]
    unfold delete_instance
    rcases rd with _ | _
    · simp only [Bool.false_eq_true, if_false]
      rw [hdel]
    · simp only [if_true]

/-- Witness for C5 at a concrete environment whose predicate marks the
loaded row for deletion. -/
theorem C5_delete_semantics_witness :
    (false = true → process_row envD false rowAlice =
      ({ import_type := some ImportType.SKIP,
         diff := some (get_diff envD none none false),
         errors := [], object_repr := none, object_id := none,
         new_record := some true }, [], none)) ∧
    (false = false → envD.store_delete instA = .ok () →
      process_row envD false rowAlice =
        ({ import_type := some ImportType.DELETE,
           diff := some (get_diff envD (some instA) none false),
           errors := [], object_repr := none, object_id := none,
           new_record := some false },
         Ev.deleteInstanceCall false ::
           (if false then [] else [Ev.storeDelete]),
         none)) :=
  C5_delete_semantics envD rowAlice instA false false rfl rfl

lemma getAttrs_setAttrs_ne (l : List (String × Value)) (a b : String)
    (v : Value) (h : a ≠ b) : getAttrs (setAttrs l a v) b = getAttrs l b := by
  induction l with
  | nil => simp [setAttrs, getAttrs, h]
  | cons p t ih =>
    obtain ⟨c, w⟩ := p
    unfold setAttrs
    by_cases hc : c = a
    · subst hc
      simp only [if_pos rfl]
      simp [getAttrs, h]
    · simp only [if_neg hc]
      by_cases hcb : c = b <;> simp [getAttrs, hcb, ih]

lemma getAttr_setAttr_ne (i : Instance) (a b : String) (v : Value)
    (h : a ≠ b) : (i.setAttr a v).getAttr b = i.getAttr b :=
  getAttrs_setAttrs_ne i.attrs a b v h

lemma Field.save_eq_clean (env : Env) (g : Field) (obj : Instance)
    (data : Row) (a : String) (cell : Cell)
    (ha : g.attrib = some a) (hcell : data.lookup g.column_name = some cell) :
    Field.save env g obj data =
      (match env.clean g cell with
       | .ok v => .ok (obj.setAttr a v)
       | .error e => .error e) := by
  unfold Field.save
  rw [ha, hcell]

lemma import_field_frame (env : Env) (g : Field) (obj obj2 : Instance)
    (data : Row) (b : String) (evs : List Ev)
    (hok : import_field env g obj data = (evs, .ok obj2))
    (hng : ¬(g.attrib = some b ∧ (data.lookup g.column_name).isSome = true)) :
    obj2.getAttr b = obj.getAttr b := by
  unfold import_field at hok
  by_cases hc : g.attrib.isSome && (data.lookup g.column_name).isSome
  · rw [if_pos hc] at hok
    simp only [Bool.and_eq_true, Option.isSome_iff_exists] at hc
    obtain ⟨⟨a, ha⟩, ⟨cell, hcell⟩⟩ := hc
    have hab : a ≠ b := by
      intro hab
      subst hab
      exact hng ⟨ha, by rw [hcell]; rfl⟩
    rw [Field.save_eq_clean env g obj data a cell ha hcell] at hok
    rcases hcl : env.clean g cell with e | v <;> rw [hcl] at hok
    · have h5 : (([] : List Ev), (Except.error e : Except String Instance)) =
          (evs, Except.ok obj2) := hok
      injection h5 with h6 h7
      injection h7
    · have h5 : ([Ev.applyField g.column_name],
          Except.ok (obj.setAttr a v)) = (evs, Except.ok obj2) := hok
      injection h5 with h6 h7
      injection h7 with h8
      rw [← h8]
      exact getAttr_setAttr_ne obj a b v hab
  · rw [if_neg hc] at hok
    injection hok with h6 h7
    injection h7 with h8
    rw [← h8]

lemma import_fields_frame (env : Env) (fs : List Field)
    (obj obj1 : Instance) (data : Row) (b : String) (evs : List Ev)
    (hok : import_fields env fs obj data = (evs, .ok obj1))
    (hng : ∀ g ∈ fs,
      ¬(g.attrib = some b ∧ (data.lookup g.column_name).isSome = true)) :
    obj1.getAttr b = obj.getAttr b := by
  induction fs generalizing obj evs with
  | nil =>
    unfold import_fields at hok
    injection hok with h6 h7
    injection h7 with h8
    rw [← h8]
  | cons g rest ih =>
    unfold import_fields at hok
    rcases h1 : import_field env g obj data with ⟨evsA, rA⟩
    rw [h1] at hok
    simp only at hok
    rcases rA with e | objm
    · have h5 : ((evsA : List Ev),
          (Except.error e : Except String Instance)) =
          (evs, Except.ok obj1) := hok
      injection h5 with h6 h7
      injection h7
    · have h5 : (evsA ++ (import_fields env rest objm data).1,
          (import_fields env rest objm data).2) = (evs, Except.ok obj1) := hok
      rcases h2 : import_fields env rest objm data with ⟨evsB, rB⟩
      rw [h2] at h5
      simp only at h5
      injection h5 with h6 hB
      rw [hB] at h2
      have hstep := import_field_frame env g obj objm data b evsA h1
        (hng g (List.mem_cons_self g rest))
      have htail := ih objm evsB h2
        (fun g2 hg2 => hng g2 (List.mem_cons_of_mem g hg2))
      rw [htail, hstep]

/-- C6: import_obj applies exactly the fields whose widget is not a
many-to-many widget; for such a field import_field assigns the cleaned cell
to the instance attribute only when the field declares an attribute and its
column is present in the row; attributes whose columns are absent from the
row are left unchanged. -/
theorem C6_import_obj_frame (env : Env) (f : Field) (obj obj1 : Instance)
    (data : Row) (a : String) (cell : Cell) (v : Value) (b : String)
    (evs : List Ev) (rd : Bool) :
    (data.lookup f.column_name = none →
      import_field env f obj data = ([], .ok obj)) ∧
    (f.attrib = none → import_field env f obj data = ([], .ok obj)) ∧
    (f.attrib = some a → data.lookup f.column_name = some cell →
      env.clean f cell = .ok v →
      import_field env f obj data =
        ([Ev.applyField f.column_name], .ok (obj.setAttr a v))) ∧
    (import_obj env obj data rd =
      import_fields env (env.fields.filter (fun g => !g.is_m2m)) obj data) ∧
    (import_obj env obj data rd = (evs, .ok obj1) →
      (∀ g ∈ env.fields, ¬(g.is_m2m = false ∧ g.attrib = some b ∧
          (data.lookup g.column_name).isSome = true)) →
      obj1.getAttr b = obj.getAttr b) := by
  refine ⟨?_, ?_, ?_, rfl, ?_⟩
  · intro h
    unfold import_field
    rw [if_neg]
    simp [h]
  · intro h
    unfold import_field
    rw [if_neg]
    simp [h]
  · intro ha hcell hcl
    unfold import_field
    rw [if_pos (by simp [ha, hcell])]
    rw [Field.save_eq_clean env f obj data a cell ha hcell, hcl]
  · intro hok hng
    unfold import_obj at hok
    refine import_fields_frame env _ obj obj1 data b evs hok ?_
    intro g hg
    rw [List.mem_filter] at hg
    intro hcon
    exact hng g hg.1 ⟨by simpa using hg.2, hcon⟩

/-- Witness for C6 at a concrete field and row: the present "name" column is
cleaned and assigned, the absent "tags" column leaves the attribute
untouched. -/
theorem C6_import_obj_frame_witness :
    ((rowAlice).lookup fTags.column_name = none →
      import_field envA fTags instA rowAlice = ([], .ok instA)) ∧
    (fTags.attrib = none → import_field envA fTags instA rowAlice = ([], .ok instA)) ∧
    (fTags.attrib = some "tags" →
      (rowAlice).lookup fTags.column_name = some "Alice" →
      envA.clean fTags "Alice" = .ok (Value.scalar "Alice") →
      import_field envA fTags instA rowAlice =
        ([Ev.applyField fTags.column_name],
          .ok (instA.setAttr "tags" (Value.scalar "Alice")))) ∧
    (import_obj envA instA rowAlice false =
      import_fields envA (envA.fields.filter (fun g => !g.is_m2m))
        instA rowAlice) ∧
    (import_obj envA instA rowAlice false =
        ([Ev.applyField "name"], .ok instA) →
      (∀ g ∈ envA.fields, ¬(g.is_m2m = false ∧ g.attrib = some "tags" ∧
          ((rowAlice).lookup g.column_name).isSome = true)) →
      instA.getAttr "tags" = instA.getAttr "tags") :=
  C6_import_obj_frame envA fTags instA instA rowAlice "tags" "Alice"
    (Value.scalar "Alice") "tags" [Ev.applyField "name"] false

lemma save_instance_evs_shape (env : Env) (inst : Instance) (dry : Bool)
    (evs : List Ev) (r : Except String Instance)
    (h : save_instance env inst dry = (evs, r)) :
    ∃ t, evs = Ev.saveInstanceCall dry :: t := by
  unfold save_instance at h
  rcases dry with _ | _
  · simp only [Bool.false_eq_true, if_false] at h
    rcases hs : env.store_save inst with e | inst2 <;> rw [hs] at h <;>
      injection h with h1 h2 <;> exact ⟨_, h1.symm⟩
  · simp only [if_true] at h
    injection h with h1 h2
    exact ⟨_, h1.symm⟩

lemma save_m2m_evs_shape (env : Env) (obj : Instance) (data : Row)
    (dry : Bool) (evs : List Ev) (r : Except String Instance)
    (h : save_m2m env obj data dry = (evs, r)) :
    ∃ t, evs = Ev.saveM2MCall dry :: t := by
  unfold save_m2m at h
  rcases dry with _ | _
  · simp only [Bool.false_eq_true, if_false] at h
    injection h with h1 h2
    exact ⟨_, h1.symm⟩
  · simp only [if_true] at h
    injection h with h1 h2
    exact ⟨_, h1.symm⟩

/-- C9: for every non-skipped, non-deleted row, save_m2m is invoked after
save_instance, and it applies the many-to-many fields only when the
effective dry flag is false: under dry-run the second pass returns the
object unchanged and performs no field application at all. -/
theorem C9_m2m_after_save (env : Env) (row : Row)
    (inst inst1 inst2 inst3 : Instance) (nw rd : Bool)
    (evs1 evs2 evs3 : List Ev)
    (hget : get_or_init_instance env row = .ok (inst, nw))
    (hfd : env.for_delete row inst = .ok false)
    (hobj : import_obj env inst row rd = (evs1, .ok inst1))
    (hskip : skip_row env inst1 inst = false)
    (hsave : save_instance env inst1 rd = (evs2, .ok inst2))
    (hm2m : save_m2m env inst2 row rd = (evs3, .ok inst3)) :
    (∃ t2 t3, (process_row env rd row).2.1 =
      evs1 ++ (Ev.saveInstanceCall rd :: t2) ++ (Ev.saveM2MCall rd :: t3)) ∧
    (∀ obj data, save_m2m env obj data true =
      ([Ev.saveM2MCall true], .ok obj)) := by
  constructor
  · obtain ⟨t2, ht2⟩ := save_instance_evs_shape env inst1 rd evs2 _ hsave
    obtain ⟨t3, ht3⟩ := save_m2m_evs_shape env inst2 row rd evs3 _ hm2m
    refine ⟨t2, t3, ?_⟩
    unfold process_row
    rw [hget]
    simp only
    rw [hfd]
    simp only [Bool.false_eq_true, if_false]
    rw [hobj]
    simp only [hskip, Bool.false_eq_true, if_false]
    rw [hsave]
    simp only
    rw [hm2m]
    simp only
    rw [ht2, ht3]
  · intro obj data
    rfl

/-- Witness for C9 at a concrete new row: field application, then
save_instance, then the m2m pass. -/
theorem C9_m2m_after_save_witness :
    (∃ t2 t3, (process_row envA false rowOK).2.1 =
      [Ev.applyField "name"] ++ (Ev.saveInstanceCall false :: t2) ++
        (Ev.saveM2MCall false :: t3)) ∧
    (∀ obj data, save_m2m envA obj data true =
      ([Ev.saveM2MCall true], .ok obj)) :=
  C9_m2m_after_save envA rowOK {} instN1 instN2 instN3 true false
    [Ev.applyField "name"] [Ev.saveInstanceCall false, Ev.storeSave]
    [Ev.saveM2MCall false, Ev.applyField "tags"] rfl rfl rfl rfl rfl rfl

/-- C10: get_or_init_instance decides found-versus-new by the truthiness of
the loader's return value: every falsy result (None or a falsy object)
yields a freshly initialized instance with new = true, every truthy result
is returned with new = false; consequently a row resolving to an existing
but falsy object is imported as NEW. -/
theorem C10_truthiness (env : Env) (row : Row)
    (i fresh inst1 inst2 inst3 : Instance) (rd : Bool)
    (evs1 evs2 evs3 : List Ev) :
    (env.get_instance row = .ok none → env.init_instance row = .ok fresh →
      get_or_init_instance env row = .ok (fresh, true)) ∧
    (env.get_instance row = .ok (some i) → i.py_bool = false →
      env.init_instance row = .ok fresh →
      get_or_init_instance env row = .ok (fresh, true)) ∧
    (env.get_instance row = .ok (some i) → i.py_bool = true →
      get_or_init_instance env row = .ok (i, false)) ∧
    (get_or_init_instance env row = .ok (fresh, true) →
      env.for_delete row fresh = .ok false →
      import_obj env fresh row rd = (evs1, .ok inst1) →
      skip_row env inst1 fresh = false →
      save_instance env inst1 rd = (evs2, .ok inst2) →
      save_m2m env inst2 row rd = (evs3, .ok inst3) →
      (process_row env rd row).1.import_type = some ImportType.NEW ∧
      (process_row env rd row).1.new_record = some true) := by
  refine ⟨?_, ?_, ?_, ?_⟩
  · intro hg hi
    unfold get_or_init_instance
    rw [hg, hi]
  · intro hg hpb hi
    unfold get_or_init_instance
    rw [hg]
    simp only [hpb, Bool.false_eq_true, if_false]
    rw [hi]
  · intro hg hpb
    unfold get_or_init_instance
    rw [hg]
    simp only [hpb, if_true]
  · intro hget hfd hobj hskip hsave hm2m
    have hpr : (process_row env rd row).1 =
        { import_type := some ImportType.NEW,
          diff := some (get_diff env (some fresh) (some inst3) rd),
          errors := [], object_repr := some (env.str_of inst3),
          object_id := inst3.pk, new_record := some true } := by
      unfold process_row
      rw [hget]
      simp only
      rw [hfd]
      simp only [Bool.false_eq_true, if_false]
      rw [hobj]
      simp only [hskip, Bool.false_eq_true, if_false]
      rw [hsave]
      simp only
      rw [hm2m]
      simp
    rw [hpr]
    exact ⟨rfl, rfl⟩

/-- Witness for C10 at a concrete loader returning an existing but falsy
object: the row is imported as NEW. -/
theorem C10_truthiness_witness :
    (envE.get_instance rowOK = .ok none → envE.init_instance rowOK = .ok {} →
      get_or_init_instance envE rowOK = .ok ({}, true)) ∧
    (envE.get_instance rowOK = .ok (some { instA with py_bool := false }) →
      Instance.py_bool { instA with py_bool := false } = false →
      envE.init_instance rowOK = .ok {} →
      get_or_init_instance envE rowOK = .ok ({}, true)) ∧
    (envE.get_instance rowOK = .ok (some { instA with py_bool := false }) →
      Instance.py_bool { instA with py_bool := false } = true →
      get_or_init_instance envE rowOK =
        .ok ({ instA with py_bool := false }, false)) ∧
    (get_or_init_instance envE rowOK = .ok ({}, true) →
      envE.for_delete rowOK {} = .ok false →
      import_obj envE {} rowOK false = ([Ev.applyField "name"], .ok instN1) →
      skip_row envE instN1 {} = false →
      save_instance envE instN1 false =
        ([Ev.saveInstanceCall false, Ev.storeSave], .ok instN2) →
      save_m2m envE instN2 rowOK false =
        ([Ev.saveM2MCall false, Ev.applyField "tags"], .ok instN3) →
      (process_row envE false rowOK).1.import_type = some ImportType.NEW ∧
      (process_row envE false rowOK).1.new_record = some true) :=
  C10_truthiness envE rowOK { instA with py_bool := false } {} instN1 instN2
    instN3 false [Ev.applyField "name"]
    [Ev.saveInstanceCall false, Ev.storeSave]
    [Ev.saveM2MCall false, Ev.applyField "tags"]

lemma finish_trace_eq_gen (dry ut : Bool) (bErrs : List Error)
    (rs : List RowResult) (evs : List Ev) :
    (finish_import dry ut bErrs (rs, evs, none)).2 =
      evs ++ (if ut then
        ((if dry = true ∨ (Result.has_errors ⟨bErrs, rs⟩) = true
          then [Ev.rollback] else [Ev.commit]) ++ [Ev.leaveTx]) else []) := by
  rcases ut with _ | _ <;> simp [finish_import]

/-- C7: when the before-import hook raises, the exception is recorded as a
base error on the Result, not as any row's error; with raise_errors true it
is re-raised before any row is processed, after rolling back and leaving the
transaction when one is active; with raise_errors false, every row is still
processed afterwards. -/
theorem C7_before_import_failure (env : Env) (ds : List Row) (dry : Bool)
    (ua : Option Bool) (e : String)
    (hb : env.before_import ds (real_dry_of env dry ua) = .error e) :
    (import_data env ds dry true ua =
      (.error e, if effective_use_transactions env ua = true then
        [Ev.enterTx, Ev.rollback, Ev.leaveTx] else [])) ∧
    (∀ d, Ev.rowStart d ∉ (import_data env ds dry true ua).2) ∧
    (∃ res, (import_data env ds dry false ua).1 = .ok res ∧
      res.base_errors = [mk_error e] ∧
      res.rows = (ds.map (final_row_result env (real_dry_of env dry ua))).filter
        (keep_row env.report_skipped) ∧
      countB Ev.isRowStart (import_data env ds dry false ua).2 = ds.length) := by
  have h1 : import_data env ds dry true ua =
      (.error e, if effective_use_transactions env ua = true then
        [Ev.enterTx, Ev.rollback, Ev.leaveTx] else []) := by
    simp only [import_data, hb, if_true]
    rcases hu : effective_use_transactions env ua <;> simp [hu, tx_abort]
  refine ⟨h1, ?_, ?_⟩
  · intro d
    rw [h1]
    rcases hu : effective_use_transactions env ua <;> simp [hu]
  · rcases ho : run_rows env (real_dry_of env dry ua) false
        (effective_use_transactions env ua) ds with ⟨rs, evs, oerr⟩
    have hnone := run_rows_oerr_none env (real_dry_of env dry ua)
      (effective_use_transactions env ua) ds
    rw [ho] at hnone
    simp only at hnone
    subst hnone
    have htrace : (import_data env ds dry false ua).2 =
        (if effective_use_transactions env ua = true
          then [Ev.enterTx] else []) ++
          (finish_import dry (effective_use_transactions env ua)
            [mk_error e] (rs, evs, none)).2 := by
      simp only [import_data, hb, Bool.false_eq_true, if_false]
      rw [ho]
    refine ⟨⟨[mk_error e], rs⟩, ?_, rfl, ?_, ?_⟩
    · simp only [import_data, hb, Bool.false_eq_true, if_false]
      rw [ho]
      simp [finish_import]
    · have h5 := run_rows_rows_eq env (real_dry_of env dry ua) false
        (effective_use_transactions env ua) ds (by rw [ho])
      rw [ho] at h5
      simp only at h5
      exact h5
    · rw [htrace, finish_trace_eq_gen]
      rw [countB_append, countB_append]
      have hcnt := run_rows_rowStart_count env (real_dry_of env dry ua) false
        (effective_use_transactions env ua) ds (by rw [ho])
      rw [ho] at hcnt
      simp only at hcnt
      rcases hu : effective_use_transactions env ua <;>
        by_cases hc : dry = true ∨
          (Result.has_errors ⟨[mk_error e], rs⟩) = true <;>
        simp [hu, hc, countB, Ev.isRowStart, hcnt]

/-- Witness for C7 at a concrete failing before-import hook. -/
theorem C7_before_import_failure_witness :
    (import_data envF [rowOK] false true none =
      (.error "HookError",
        if effective_use_transactions envF none = true then
          [Ev.enterTx, Ev.rollback, Ev.leaveTx] else [])) ∧
    (∀ d, Ev.rowStart d ∉ (import_data envF [rowOK] false true none).2) ∧
    (∃ res, (import_data envF [rowOK] false false none).1 = .ok res ∧
      res.base_errors = [mk_error "HookError"] ∧
      res.rows = (([rowOK]).map
          (final_row_result envF (real_dry_of envF false none))).filter
        (keep_row envF.report_skipped) ∧
      countB Ev.isRowStart (import_data envF [rowOK] false false none).2
        = ([rowOK] : List Row).length) :=
  C7_before_import_failure envF [rowOK] false none "HookError" rfl

end ImportExport
